import Mathlib

set_option maxRecDepth 4000

/-!
Verification of the Revolut CSV transformer pipeline (src/src/App.tsx).

The embedding models machine floating point numbers as rationals, so IEEE
rounding artifacts, infinities and overflow are idealized away; none of the
verified properties depend on them.  JavaScript strings are modelled by the
Lean String type, with character level operations restricted to the ASCII
fragment the program manipulates.  Host primitives that are not part of the
repository (the Date constructor and JSON.parse) appear as explicit function
parameters of the definitions that call them.
-/

/-- Characters matched by the JavaScript whitespace class in the ASCII and
Latin-1 range; the amount strings handled by the program only contain the
ASCII ones. -/
def isJsSpace (c : Char) : Bool :=
  c = ' ' || c = '\t' || c = '\n' || c = '\r' || c = '\x0b' || c = '\x0c' || c = ' '

/-- List level trim, modelling String.prototype.trim. -/
def trimL (cs : List Char) : List Char :=
  ((cs.dropWhile isJsSpace).reverse.dropWhile isJsSpace).reverse

def strTrim (s : String) : String := String.mk (trimL s.toList)

/-- Model of toLowerCase restricted to ASCII input. -/
def strToLower (s : String) : String := String.mk (s.toList.map Char.toLower)

/-- Model of toUpperCase restricted to ASCII input. -/
def strToUpper (s : String) : String := String.mk (s.toList.map Char.toUpper)

/-- Substring test at the character list level, modelling String.prototype.includes. -/
def listHas : List Char → List Char → Bool
  | [], needle => needle.isEmpty
  | c :: t, needle => needle.isPrefixOf (c :: t) || listHas t needle

/-- s.includes(sub) -/
def strHas (s sub : String) : Bool := listHas s.toList sub.toList

/-- App.tsx line 16. -/
def siteNameDefault : String := "Revolut CSV Transformer"

/-- App.tsx lines 17-32: the fixed category taxonomy. -/
def categorySet : List String :=
  ["Groceries", "Restaurants", "Transport", "Shopping", "Entertainment", "Bills",
   "Housing", "Health", "Travel", "Cash Withdrawal", "Transfers", "Income", "Fees", "Other"]

/-- A field must be quoted when it contains a double quote, the comma delimiter
or a newline (the regex test on App.tsx line 41). -/
def isCsvSpecial (c : Char) : Bool := c = '"' || c = ',' || c = '\n'

/-- Doubling of internal double quotes (App.tsx line 42). -/
def dblQuote (c : Char) : List Char := if c = '"' then ['"', '"'] else [c]

def csvEscapeL (cs : List Char) : List Char :=
  if cs.any isCsvSpecial then '"' :: (cs.flatMap dblQuote ++ ['"']) else cs

/-- App.tsx lines 38-45: csvEscape.  The null and undefined inputs map to the
empty string before this point, so the embedding takes a String. -/
def csvEscape (s : String) : String := String.mk (csvEscapeL s.toList)

/-- App.tsx lines 56-75: the ordered keyword rules of heuristicCategory.  The
chain of if statements is transcribed as a priority list searched for the
first rule with a matching keyword. -/
def heuristicRules : List (List String × String) :=
  [ (["salary", "stipend", "payroll", "bonifico in entrata"], "Income")
  , (["atm", "cash withdrawal", "prelievo"], "Cash Withdrawal")
  , (["transfer", "bonifico", "internal transfer", "worldpay"], "Transfers")
  , (["amazon", "zalando", "decathlon", "ikea"], "Shopping")
  , (["conad", "coop", "lidl", "eurospin", "supermerc"], "Groceries")
  , (["bar ", "caffe", "ristor", "trattoria", "locanda", "osteria", "pizza", "mcd",
      "burger", "kebab"], "Restaurants")
  , (["trenitalia", "italo", "uber", "taxi", "flixbus", "ryanair", "wizz"], "Transport")
  , (["spotify", "netflix", "steam", "prime", "disney"], "Entertainment")
  , (["enel", "acea", "tim", "vodafone", "windtre", "bolletta"], "Bills")
  , (["affitto", "rent", "mutuo", "mortgage"], "Housing")
  , (["farmacia", "pharma", "clinic", "ospedale", "dental"], "Health")
  , (["hotel", "booking", "airbnb", "hostel"], "Travel")
  , (["fee", "commission"], "Fees") ]

/-- Whether some keyword of some rule occurs in the lower cased name. -/
def matchesAnyHeuristicRule (name : String) : Bool :=
  heuristicRules.any (fun rule => rule.1.any (fun k => strHas (strToLower name) k))

/-- App.tsx lines 56-75: heuristicCategory, first matching rule wins,
default Other. -/
def heuristicCategory (name : String) : String :=
  let s := strToLower name
  ((heuristicRules.find? (fun rule => rule.1.any (fun k => strHas s k))).map
    (fun rule => rule.2)).getD "Other"

/-- Numeric value of a digit list, most significant first. -/
def digitsToNat (ds : List Char) : Nat := ds.foldl (fun a c => 10 * a + (c.toNat - 48)) 0

/-- Optional signed digit run for the exponent part of parseFloat; an empty
digit run contributes exponent zero, matching the longest valid prefix rule. -/
def parseSignedDigits (cs : List Char) : Int :=
  match cs with
  | '-' :: r => let d := r.takeWhile Char.isDigit
                if d.isEmpty then 0 else -(digitsToNat d : Int)
  | '+' :: r => let d := r.takeWhile Char.isDigit
                if d.isEmpty then 0 else (digitsToNat d : Int)
  | r => let d := r.takeWhile Char.isDigit
         if d.isEmpty then 0 else (digitsToNat d : Int)

def parseExpVal : List Char → Int
  | 'e' :: rest => parseSignedDigits rest
  | 'E' :: rest => parseSignedDigits rest
  | _ => 0

/-- The exact rational sgn mult mant divided by ten to the fracLen, scaled by
ten to the e: the value of a parsed decimal literal.  Built as one mkRat of
integer arithmetic, so the kernel can evaluate it. -/
def decValue (sgn : Int) (mant : Nat) (fracLen : Nat) (e : Int) : ℚ :=
  if 0 ≤ e then mkRat (sgn * (mant : Int) * ((10 : Nat) ^ e.toNat : Nat)) ((10 : Nat) ^ fracLen)
  else mkRat (sgn * (mant : Int)) ((10 : Nat) ^ fracLen * (10 : Nat) ^ (-e).toNat)

/-- Model of the host parseFloat: leading whitespace skipped, an optional
sign, decimal digits with an optional fraction and exponent, trailing garbage
ignored; none models the NaN result for inputs with no numeric prefix.
Floating point magnitudes are idealized as exact rationals. -/
def parseFloatQ (s : String) : Option ℚ :=
  let cs := s.toList.dropWhile isJsSpace
  let sgncs : Int × List Char :=
    match cs with
    | '-' :: r => (-1, r)
    | '+' :: r => (1, r)
    | _ => (1, cs)
  let ip := sgncs.2.takeWhile Char.isDigit
  let r1 := sgncs.2.dropWhile Char.isDigit
  let fpr2 : List Char × List Char :=
    match r1 with
    | '.' :: t => (t.takeWhile Char.isDigit, t.dropWhile Char.isDigit)
    | _ => ([], r1)
  if ip.isEmpty && fpr2.1.isEmpty then none
  else
    some (decValue sgncs.1 (digitsToNat ip * 10 ^ fpr2.1.length + digitsToNat fpr2.1)
      fpr2.1.length (parseExpVal fpr2.2))

def pad2 (n : Nat) : String := if n < 10 then "0" ++ toString n else toString n

/-- A non negative amount with exactly two decimal digits, in hundredths. -/
def fmtCents (n : Nat) : String := toString (n / 100) ++ "." ++ pad2 (n % 100)

/-- The integer nearest one hundred times q, halves rounded up: the floor of
100 q + one half, computed by floor division on the reduced fraction. -/
def roundCents (q : ℚ) : Int := Int.fdiv (200 * q.num + (q.den : Int)) (2 * (q.den : Int))

/-- Math.abs on the idealized rational value.  The numerator sign test agrees
with q < 0 because the denominator of a reduced rational is positive. -/
def qAbs (q : ℚ) : ℚ := if q.num < 0 then mkRat (-q.num) q.den else q

/-- Model of Number.prototype.toFixed(2): round to the nearest hundredth,
halves of the magnitude rounded away from zero, and print with exactly two
fraction digits. -/
def toFixed2 (q : ℚ) : String :=
  if q.num < 0 then "-" ++ fmtCents (Int.toNat (roundCents (mkRat (-q.num) q.den)))
  else fmtCents (Int.toNat (roundCents q))

/-- A raw transaction row: the record built by the CSV decoder, column name
to string value.  JavaScript object semantics: the last assignment to a key
wins, a missing key reads as the empty string through the || defaults. -/
abbrev RawRow := List (String × String)

/-- The session category map, merchant name to category string. -/
abbrev CatMap := List (String × String)

/-- Property read r[k], none when the key is absent. -/
def rowGetOpt (r : RawRow) (k : String) : Option String := r.reverse.lookup k

/-- Property read (r[k] || ""). -/
def rowGet (r : RawRow) (k : String) : String := (rowGetOpt r k).getD ""

/-- Lookup in the category map, categoryMap[name]. -/
def lookupCat (m : CatMap) (k : String) : Option String := m.reverse.lookup k

/-- The replacement of a carriage return and newline pair by a bare newline;
splitting the result on the newline character is equivalent to the split on
the line separator regex of App.tsx line 138. -/
def replaceCRLF : List Char → List Char
  | [] => []
  | '\r' :: '\n' :: rest => '\n' :: replaceCRLF rest
  | c :: rest => c :: replaceCRLF rest

def splitLinesJS (s : String) : List String :=
  ((replaceCRLF s.toList).splitOn '\n').map String.mk

/-- line.split(",") -/
def strSplitComma (s : String) : List String := (s.toList.splitOn ',').map String.mk

/-- App.tsx lines 141-146: zip header names to column values positionally,
missing trailing columns read as the empty string, every value trimmed. -/
def mkRec (headers cols : List String) : RawRow :=
  headers.enum.map (fun p => (p.2, strTrim (cols.getD p.1 "")))

/-- App.tsx lines 137-148: the fallback CSV decoder.  Lines are split naively
on the comma, with no quote handling. -/
def fallbackParse (csvText : String) : List RawRow × List String :=
  match (splitLinesJS csvText).filter (fun l => l != "") with
  | [] => ([], ["Empty file"])
  | headerLine :: rest =>
    let headers := (strSplitComma headerLine).map strTrim
    (rest.map (fun line => mkRec headers (strSplitComma line)), [])

/-- The settings record read by the transformation (App.tsx lines 174-180). -/
structure Settings where
  dateField : String
  source : String
  websiteName : String
  onlyCompleted : Bool
  typeFilter : String
deriving Repr, DecidableEq

/-- App.tsx lines 263-266: drop empty records, then, when the completed only
setting is on, keep the rows whose upper cased State column is COMPLETED. -/
def filteredRows (onlyCompleted : Bool) (rawRows : List RawRow) : List RawRow :=
  let rows := rawRows.filter (fun r => !r.isEmpty)
  if onlyCompleted
  then rows.filter (fun r => strToUpper (rowGet r "State") == "COMPLETED")
  else rows

/-- rawAmt.replace of the whitespace class by nothing (App.tsx line 279). -/
def strStripWS (s : String) : String := String.mk (s.toList.filter (fun c => !isJsSpace c))

/-- Deletion of every dot (App.tsx line 280, first replace). -/
def strRemoveDots (s : String) : String := String.mk (s.toList.filter (fun c => c != '.'))

/-- Every comma becomes a dot (App.tsx line 280, second replace). -/
def strCommaToDot (s : String) : String :=
  String.mk (s.toList.map (fun c => if c = ',' then '.' else c))

/-- The amount parser of App.tsx lines 279-281: strip whitespace, delete the
dots, turn commas into dots, then parseFloat; none models NaN. -/
def amountNum (raw : String) : Option ℚ :=
  parseFloatQ (strCommaToDot (strRemoveDots (strStripWS raw)))

/-- The numeric amount actually used downstream: (amtNum || 0), so NaN reads
as zero.  The comparison amtNum < 0 of line 282 agrees with this value being
negative, because NaN < 0 is false in JavaScript. -/
def amountValue (raw : String) : ℚ := (amountNum raw).getD 0

/-- (r["Amount"] ?? "0") of App.tsx line 279. -/
def rawAmountOf (r : RawRow) : String := (rowGetOpt r "Amount").getD "0"

/-- The anchored year-month-day digit pattern of App.tsx line 50. -/
def isIsoDigits : List Char → Bool
  | [a, b, c, d, '-', e, f, '-', g, h] =>
    a.isDigit && b.isDigit && c.isDigit && d.isDigit &&
    e.isDigit && f.isDigit && g.isDigit && h.isDigit
  | _ => false

/-- App.tsx lines 47-54: toISODate.  The jsDate parameter models the host
Date constructor followed by toISOString().slice(0, 10), returning none when
the constructed date is invalid. -/
def toISODate (jsDate : String → Option String) (dateStr : String) : String :=
  if dateStr = "" then ""
  else
    let d := String.mk ((trimL dateStr.toList).take 10)
    if isIsoDigits d.toList then d
    else (jsDate dateStr).getD ""

/-- First truthy of the date column fallback chain of App.tsx line 286. -/
def firstNonEmpty : List String → String
  | [] => ""
  | s :: rest => if s = "" then firstNonEmpty rest else s

/-- The normalized output record (App.tsx lines 287-297). -/
structure NormalizedTx where
  date : String
  type : String
  amount : String
  currency : String
  category : String
  name : String
  account : String
  notes : String
  source : String
deriving Repr, DecidableEq

/-- App.tsx lines 278-298: the per row transformation body of transformedAll. -/
def transformRow (jsDate : String → Option String) (st : Settings) (cmap : CatMap)
    (r : RawRow) : NormalizedTx :=
  let q := amountValue (rawAmountOf r)
  let nm := rowGet r "Description"
  { date := toISODate jsDate
      (firstNonEmpty [rowGet r st.dateField, rowGet r "Completed Date", rowGet r "Started Date"])
  , type := if q < 0 then "Expense" else "Income"
  , amount := toFixed2 (qAbs q)
  , currency := rowGet r "Currency"
  , category :=
      match lookupCat cmap nm with
      | some v => if v = "" then heuristicCategory nm else v
      | none => heuristicCategory nm
  , name := nm
  , account := if st.source = "" then "Revolut" else st.source
  , notes := ""
  , source := if st.websiteName = "" then siteNameDefault else st.websiteName }

/-- App.tsx lines 277-299: transformedAll maps the filtered rows. -/
def transformedAll (jsDate : String → Option String) (st : Settings) (cmap : CatMap)
    (rows : List RawRow) : List NormalizedTx :=
  (filteredRows st.onlyCompleted rows).map (transformRow jsDate st cmap)

/-- App.tsx lines 301-304: the export time type filter. -/
def transformedFiltered (jsDate : String → Option String) (st : Settings) (cmap : CatMap)
    (rows : List RawRow) : List NormalizedTx :=
  if st.typeFilter = "Both" then transformedAll jsDate st cmap rows
  else (transformedAll jsDate st cmap rows).filter (fun t => t.type == st.typeFilter)

/-- Raw CSV text to normalized rows through the fallback decoder. -/
def pipelineFromText (jsDate : String → Option String) (st : Settings) (cmap : CatMap)
    (text : String) : List NormalizedTx :=
  transformedAll jsDate st cmap (fallbackParse text).1

/-- App.tsx line 320: the output column order. -/
def outputCols : List String :=
  ["Date", "Type", "Amount", "Currency", "Category", "Name", "Account", "Notes", "Source"]

/-- row[c] for the download loop; an unknown column name reads as undefined,
which csvEscape maps to the empty string. -/
def txField (r : NormalizedTx) (c : String) : String :=
  if c = "Date" then r.date
  else if c = "Type" then r.type
  else if c = "Amount" then r.amount
  else if c = "Currency" then r.currency
  else if c = "Category" then r.category
  else if c = "Name" then r.name
  else if c = "Account" then r.account
  else if c = "Notes" then r.notes
  else if c = "Source" then r.source
  else ""

/-- One delimiter joined, escaped data line (App.tsx line 323). -/
def encodeRowLine (r : NormalizedTx) : String :=
  String.intercalate "," (outputCols.map (fun c => csvEscape (txField r c)))

/-- App.tsx lines 319-325: the text of the downloaded CSV file. -/
def handleDownloadCsv (rows : List NormalizedTx) : String :=
  let header := String.intercalate "," outputCols
  let body := String.intercalate "\n" (rows.map encodeRowLine)
  header ++ "\n" ++ body ++ "\n"

/-- The span of the first opening brace through the last closing brace, the
match of the brace recovery regex of App.tsx line 126; none when the body has
no such span. -/
def extractBraceL (cs : List Char) : Option (List Char) :=
  match cs.dropWhile (fun c => c != '{') with
  | [] => none
  | rest =>
    match rest.reverse.dropWhile (fun c => c != '}') with
    | [] => none
    | rev => some rev.reverse

def extractBrace (s : String) : Option String := (extractBraceL s.toList).map String.mk

/-- App.tsx lines 122-132: handling of one response body.  The jp parameter
models the host JSON.parse restricted to the shape the contract expects: some
pairs when the text parses as a JSON object with those key and value strings,
none when parsing throws.  Object.assign merges with later values overriding,
modelled as list append under last binding wins lookup, which is
observationally equal for every lookup the program performs.  When the brace
recovery substring also fails to parse, the exception of the second
JSON.parse call is not caught and propagates, aborting the whole run. -/
def classifyProcessBody (jp : String → Option CatMap) (group : List String)
    (mapping : CatMap) (text : String) : Except String CatMap :=
  match jp text with
  | some pairs => Except.ok (mapping ++ pairs)
  | none =>
    match extractBrace text with
    | some sub =>
      match jp sub with
      | some pairs => Except.ok (mapping ++ pairs)
      | none => Except.error "Unexpected token in JSON"
    | none => Except.ok (mapping ++ group.map (fun n => (n, heuristicCategory n)))

/-- The network level outcome of one batch request: a non success HTTP
response, or a success whose optional content is the assistant message text
(none models a missing choices field). -/
inductive FetchOutcome where
  | httpError (status : Nat) (text : String)
  | success (content : Option String)
deriving Repr, DecidableEq

/-- data.choices text extraction with the or default of App.tsx line 121:
trimmed content, or the two character empty object text when missing or
blank. -/
def responseText : Option String → String
  | some s => if strTrim s = "" then "\x7b\x7d" else strTrim s
  | none => "\x7b\x7d"

/-- One loop iteration of classifyWithOpenAI (App.tsx lines 89-133): a non
success response throws with the status and body text, a success response
body is merged. -/
def classifyBatch (jp : String → Option CatMap) (group : List String) (mapping : CatMap) :
    FetchOutcome → Except String CatMap
  | FetchOutcome.httpError status text =>
      Except.error ("OpenAI API error: " ++ toString status ++ " " ++ text)
  | FetchOutcome.success content => classifyProcessBody jp group mapping (responseText content)

/-- Decidable equality of request results, used to evaluate the concrete
classification runs below. -/
instance {ε α : Type} [DecidableEq ε] [DecidableEq α] : DecidableEq (Except ε α) :=
  fun a b =>
    match a, b with
    | Except.ok x, Except.ok y =>
      if h : x = y then isTrue (by rw [h])
      else isFalse (by intro hh; cases hh; exact h rfl)
    | Except.ok _, Except.error _ => isFalse (by intro hh; cases hh)
    | Except.error _, Except.ok _ => isFalse (by intro hh; cases hh)
    | Except.error e, Except.error f =>
      if h : e = f then isTrue (by rw [h])
      else isFalse (by intro hh; cases hh; exact h rfl)

/-- Accumulating worker for the batch cut: collects the current group in
reverse with the remaining capacity, emitting a full group of forty before
starting the next. -/
def chunkGo : List String → List String → Nat → List (List String)
  | [], acc, _ => [acc.reverse]
  | y :: ys, acc, Nat.succ k => chunkGo ys (y :: acc) k
  | y :: ys, acc, 0 => acc.reverse :: chunkGo ys [y] 39

/-- App.tsx lines 83-85: the names are cut into groups of at most forty, in
order. -/
def chunkList : List String → List (List String)
  | [] => []
  | x :: xs => chunkGo xs [x] 39

/-- The sequential batch loop: each group consumes the next outcome; the
first error propagates at once, so the outcomes of later groups are never
consulted.  The real loop performs one request per group, so the theorems
always supply one outcome per group. -/
def classifyGo (jp : String → Option CatMap) :
    List (List String) → List FetchOutcome → CatMap → Except String CatMap
  | [], _, m => Except.ok m
  | _ :: _, [], m => Except.ok m
  | g :: gs, o :: os, m =>
    match classifyBatch jp g m o with
    | Except.ok m2 => classifyGo jp gs os m2
    | Except.error e => Except.error e

/-- App.tsx lines 77-135: classifyWithOpenAI over a list of request outcomes.
The mapping accumulator starts empty; a missing key fails before any request. -/
def classifyRun (jp : String → Option CatMap) (apiKey : String) (names : List String)
    (outcomes : List FetchOutcome) : Except String CatMap :=
  if apiKey = "" then Except.error "Please add your LLM API key in Settings."
  else classifyGo jp (chunkList names) outcomes []

/-- The pieces of component state touched by handleClassify. -/
structure SessionState where
  errors : List String
  categoryMap : CatMap
  status : String
deriving Repr, DecidableEq

/-- App.tsx lines 306-317: on success the session category map is replaced by
the mapping of the run; on any thrown error the message is appended to the
error list, the status is cleared, and the category map is left untouched. -/
def handleClassify (jp : String → Option CatMap) (apiKey : String) (names : List String)
    (outcomes : List FetchOutcome) (st : SessionState) : SessionState :=
  if apiKey = "" then
    { st with status := "", errors := st.errors ++ ["Please add your LLM API key in Settings."] }
  else
    match classifyRun jp apiKey names outcomes with
    | Except.ok m => { st with categoryMap := m, status := "Classification complete." }
    | Except.error e => { st with status := "", errors := st.errors ++ [e] }

/-- A host date parser instance that recognizes nothing; the properties below
never reach the general date path. -/
def hostDateNone : String → Option String := fun _ => none

/-- The default settings of App.tsx lines 174-180. -/
def stDefault : Settings :=
  { dateField := "Completed Date", source := "Revolut", websiteName := siteNameDefault
  , onlyCompleted := true, typeFilter := "Both" }

/-- A classifier reply body holding one object pair m0 to Groceries. -/
def jsonBody1 : String := "\x7b\"m0\":\"Groceries\"\x7d"

/-- A classifier reply body whose key is not a requested name and whose value
is not a taxonomy category. -/
def jsonBody2 : String := "\x7b\"NotAName\":\"NotACategory\"\x7d"

/-- A reply body with prose around the object, exercising the brace recovery
path. -/
def noisyBody : String := "Sure! \x7b\"NotAName\":\"NotACategory\"\x7d done"

/-- A concrete host JSON.parse instance for the witnesses: it parses exactly
the two object bodies above and throws on everything else. -/
def jpModel : String → Option CatMap := fun s =>
  if s = jsonBody1 then some [("m0", "Groceries")]
  else if s = jsonBody2 then some [("NotAName", "NotACategory")]
  else none

/-- Forty one distinct merchant names, producing two request batches. -/
def names41 : List String := (List.range 41).map (fun i => "m" ++ toString i)

/-- The session state right after an upload: empty errors, cleared map. -/
def sessionEmpty : SessionState := { errors := [], categoryMap := [], status := "" }

/-- A concrete normalized record, the documented example output row. -/
def sampleTx : NormalizedTx :=
  { date := "2025-08-01", type := "Expense", amount := "47.30", currency := "EUR"
  , category := "Groceries", name := "CONAD SUPERMARKET", account := "Revolut"
  , notes := "", source := "Revolut CSV Transformer" }

/-- The documented example input: the standard header line and the example
data line of the specification and the readme. -/
def c3InputText : String :=
  "Type,Product,Started Date,Completed Date,Description,Amount,Fee,Currency,State,Balance\nCARD_PAYMENT,Card,2025-08-01 08:15,2025-08-01 08:15,CONAD SUPERMARKET,-47,30,,EUR,COMPLETED,1234,56"

theorem strMk_toList (s : String) : String.mk s.toList = s := by
  cases s; rfl

theorem lookup_ne_none_of_mem {l : List (String × String)} {k v : String}
    (h : (k, v) ∈ l) : l.lookup k ≠ none := by
  induction l with
  | nil => cases h
  | cons p t ih =>
    obtain ⟨a, b⟩ := p
    rcases List.mem_cons.mp h with heq | hmem
    · cases heq
      simp [List.lookup]
    · by_cases hk : k = a
      · subst hk; simp [List.lookup]
      · simp only [List.lookup]
        rw [show (k == a) = false from beq_eq_false_iff_ne.mpr hk]
        exact ih hmem

theorem lookup_append_left {l₁ : List (String × String)} (l₂ : List (String × String))
    {k : String} (h : l₁.lookup k ≠ none) : (l₁ ++ l₂).lookup k = l₁.lookup k := by
  induction l₁ with
  | nil => simp [List.lookup] at h
  | cons p t ih =>
    obtain ⟨a, b⟩ := p
    by_cases hk : k = a
    · subst hk; simp [List.lookup]
    · simp only [List.cons_append, List.lookup,
        show (k == a) = false from beq_eq_false_iff_ne.mpr hk] at h ⊢
      exact ih h

/-- C1: the downloaded CSV is not headerless.  Evaluating the encoder of
App.tsx lines 319-325 on one normalized row shows that the produced text
starts with a line of column names before the data line, contradicting the
documented data lines only format. -/
theorem c1_download_has_header_line :
    handleDownloadCsv [sampleTx] =
      "Date,Type,Amount,Currency,Category,Name,Account,Notes,Source\n2025-08-01,Expense,47.30,EUR,Groceries,CONAD SUPERMARKET,Revolut,,Revolut CSV Transformer\n" ∧
    handleDownloadCsv [sampleTx] ≠ encodeRowLine sampleTx ++ "\n" := by
  constructor
  · decide
  · decide

/-- C2: the amount parser does not map the US formatted string to the claimed
value.  The EU form 1.234,56 parses to 1234.56, but the US form 1,234.56
parses to 1.23456, because every dot is deleted before the commas become the
decimal point; the two forms therefore do not receive the same numeric
value. -/
theorem c2_us_format_misparsed :
    amountNum "1.234,56" = some (mkRat 123456 100) ∧
    amountNum "1,234.56" = some (mkRat 123456 100000) ∧
    amountNum "1,234.56" ≠ some (mkRat 123456 100) ∧
    (mkRat 123456 100 : ℚ) = 123456 / 100 ∧
    (mkRat 123456 100000 : ℚ) = 123456 / 100000 := by
  refine ⟨by decide, by decide, by decide, by norm_num [Rat.mkRat_eq_div], by
    norm_num [Rat.mkRat_eq_div]⟩

/-- C3: the documented example row yields no output at all.  Splitting the
example data line on commas gives twelve fields for ten headers, the State
column receives the shifted value EUR, the completed only filter discards the
row, and the pipeline output is empty instead of the claimed single
normalized row. -/
theorem c3_example_row_dropped :
    rowGet ((fallbackParse c3InputText).1.getD 0 []) "State" = "EUR" ∧
    filteredRows true (fallbackParse c3InputText).1 = [] ∧
    pipelineFromText hostDateNone stDefault [] c3InputText = [] := by
  refine ⟨by decide, by decide, by decide⟩

/-- C4: partial progress is not retained.  With two batches (forty one
names), the first batch succeeds and merges m0 to Groceries into the run
local mapping, the second batch fails with an HTTP error; the run aborts with
that error, and the session category map afterwards is still empty: the
mapping produced by the prior successful batch is discarded, not kept. -/
theorem c4_counterexample :
    classifyBatch jpModel (names41.take 40) []
      (FetchOutcome.success (some jsonBody1)) = Except.ok [("m0", "Groceries")] ∧
    classifyRun jpModel "sk-test" names41
      [FetchOutcome.success (some jsonBody1), FetchOutcome.httpError 500 "boom"] =
      Except.error "OpenAI API error: 500 boom" ∧
    (handleClassify jpModel "sk-test" names41
      [FetchOutcome.success (some jsonBody1), FetchOutcome.httpError 500 "boom"]
      sessionEmpty).categoryMap = [] ∧
    lookupCat (handleClassify jpModel "sk-test" names41
      [FetchOutcome.success (some jsonBody1), FetchOutcome.httpError 500 "boom"]
      sessionEmpty).categoryMap "m0" = none ∧
    (handleClassify jpModel "sk-test" names41
      [FetchOutcome.success (some jsonBody1), FetchOutcome.httpError 500 "boom"]
      sessionEmpty).errors = ["OpenAI API error: 500 boom"] := by
  refine ⟨by decide, by decide, by decide, by decide, by decide⟩

/-- C4 amended: a failed batch aborts the remaining unsent batches at once
(the error propagates without consulting any later outcome) and surfaces one
error message, but the session category map is left at its value from before
the run: the mappings of prior successful batches are discarded with the rest
of the run local mapping, not retained. -/
theorem c4_amended_partial_progress_discarded :
    (∀ (jp : String → Option CatMap) (apiKey : String) (names : List String)
       (outcomes : List FetchOutcome) (st : SessionState) (e : String),
       apiKey ≠ "" →
       classifyRun jp apiKey names outcomes = Except.error e →
       (handleClassify jp apiKey names outcomes st).categoryMap = st.categoryMap ∧
       (handleClassify jp apiKey names outcomes st).errors = st.errors ++ [e] ∧
       (handleClassify jp apiKey names outcomes st).status = "") ∧
    (∀ (jp : String → Option CatMap) (g : List String) (gs : List (List String))
       (os : List FetchOutcome) (m : CatMap) (s : Nat) (t : String),
       classifyGo jp (g :: gs) (FetchOutcome.httpError s t :: os) m =
         Except.error ("OpenAI API error: " ++ toString s ++ " " ++ t)) := by
  constructor
  · intro jp apiKey names outcomes st e hkey hrun
    simp [handleClassify, if_neg hkey, hrun]
  · intro jp g gs os m s t
    rfl

/-- Witness for the amended C4 statement at a concrete failing run. -/
theorem c4_amended_witness :
    (handleClassify jpModel "sk-w" ["alpha"] [FetchOutcome.httpError 404 "no"]
      { errors := ["old"], categoryMap := [("k", "v")], status := "s" }).categoryMap =
      [("k", "v")] ∧
    (handleClassify jpModel "sk-w" ["alpha"] [FetchOutcome.httpError 404 "no"]
      { errors := ["old"], categoryMap := [("k", "v")], status := "s" }).errors =
      ["old"] ++ ["OpenAI API error: 404 no"] ∧
    classifyGo jpModel [["alpha"]] [FetchOutcome.httpError 404 "no"] [] =
      Except.error ("OpenAI API error: " ++ toString 404 ++ " " ++ "no") := by
  have h := c4_amended_partial_progress_discarded
  have h1 := h.1 jpModel "sk-w" ["alpha"] [FetchOutcome.httpError 404 "no"]
    { errors := ["old"], categoryMap := [("k", "v")], status := "s" }
    "OpenAI API error: 404 no" (by decide) (by decide)
  exact ⟨h1.1, h1.2.1, h.2 jpModel ["alpha"] [] [] [] 404 "no"⟩

/-- C10: whenever the reply body parses as a JSON object, directly or through
the first brace to last brace substring, the parsed key value pairs are
merged into the mapping verbatim: the result is exactly the append of the
pairs, with no check that a key is a requested name or that a value belongs
to the category taxonomy, and every parsed key becomes a key of the map. -/
theorem c10_merge_verbatim :
    ∀ (jp : String → Option CatMap) (group : List String) (mapping : CatMap)
      (text sub : String) (pairs : CatMap),
      (jp text = some pairs ∨
        (jp text = none ∧ extractBrace text = some sub ∧ jp sub = some pairs)) →
      classifyProcessBody jp group mapping text = Except.ok (mapping ++ pairs) ∧
      ∀ k v : String, (k, v) ∈ pairs → lookupCat (mapping ++ pairs) k ≠ none := by
  intro jp group mapping text sub pairs h
  constructor
  · rcases h with h1 | ⟨h1, h2, h3⟩
    · simp [classifyProcessBody, h1]
    · simp [classifyProcessBody, h1, h2, h3]
  · intro k v hkv
    have hne : pairs.reverse.lookup k ≠ none :=
      lookup_ne_none_of_mem (List.mem_reverse.mpr hkv)
    simp only [lookupCat, List.reverse_append]
    rw [lookup_append_left _ hne]
    exact hne

/-- Witness for C10 through the brace recovery path: a reply whose object
carries a key that was never requested and a value outside the taxonomy is
still merged as is. -/
theorem c10_merge_verbatim_witness :
    classifyProcessBody jpModel ["alpha"] [] noisyBody =
      Except.ok ([] ++ [("NotAName", "NotACategory")]) ∧
    lookupCat ([] ++ [("NotAName", "NotACategory")]) "NotAName" ≠ none ∧
    "NotACategory" ∉ categorySet ∧ "NotAName" ∉ ["alpha"] := by
  have h := c10_merge_verbatim jpModel ["alpha"] [] noisyBody jsonBody2
    [("NotAName", "NotACategory")] (Or.inr ⟨by decide, by decide, by decide⟩)
  exact ⟨h.1, h.2 "NotAName" "NotACategory" (by decide), by decide, by decide⟩

theorem qAbs_eq_abs (q : ℚ) : qAbs q = |q| := by
  unfold qAbs
  split
  · next h =>
    have hq : q < 0 := by
      by_contra hge
      exact absurd (Rat.num_nonneg.mpr (not_lt.mp hge)) (not_le.mpr h)
    rw [abs_of_neg hq, ← Rat.neg_mkRat, Rat.mkRat_self]
  · next h =>
    have hq : 0 ≤ q := Rat.num_nonneg.mp (not_lt.mp h)
    rw [abs_of_nonneg hq]

/-- C5 counterexample: the encoded form of a field holding a comma, a double
quote and a newline does not decode back to the original.  The fallback
decoder splits naively on newlines and commas with no unquoting, so the
decoded field is the first comma fragment with its quoting intact. -/
theorem c5_roundtrip_counterexample :
    csvEscape "He said \"Hi\",\nbye" = "\"He said \"\"Hi\"\",\nbye\"" ∧
    (fallbackParse ("F\n" ++ csvEscape "He said \"Hi\",\nbye")).1.getD 0 [] =
      [("F", "\"He said \"\"Hi\"\"")] ∧
    rowGet ((fallbackParse ("F\n" ++ csvEscape "He said \"Hi\",\nbye")).1.getD 0 []) "F" ≠
      "He said \"Hi\",\nbye" := by
  refine ⟨by decide, by decide, by decide⟩

/-- C5 amended: the quoting rule holds, a field is wrapped in double quotes
with internal quotes doubled exactly when it contains the delimiter, a double
quote or a newline; but the decoder does not invert the encoder: decoding the
encoded form of the example field yields the first comma fragment of its
quoted text, not the original string. -/
theorem c5_amended_quoting_no_roundtrip :
    (∀ s : String,
      ((s.toList.any isCsvSpecial = true) ↔ (csvEscape s).toList.head? = some '"') ∧
      (s.toList.any isCsvSpecial = true →
        csvEscape s = String.mk ('"' :: (s.toList.flatMap dblQuote ++ ['"']))) ∧
      (s.toList.any isCsvSpecial = false → csvEscape s = s)) ∧
    csvEscape "He said \"Hi\", bye" = "\"He said \"\"Hi\"\", bye\"" ∧
    rowGet ((fallbackParse ("F\n" ++ csvEscape "He said \"Hi\",\nbye")).1.getD 0 []) "F" =
      "\"He said \"\"Hi\"\"" := by
  refine ⟨?_, by decide, by decide⟩
  intro s
  refine ⟨⟨?_, ?_⟩, ?_, ?_⟩
  · intro h
    show (csvEscapeL s.toList).head? = some '"'
    unfold csvEscapeL
    rw [if_pos h]
    rfl
  · intro h
    by_contra hany
    have hfalse : s.toList.any isCsvSpecial = false :=
      Bool.eq_false_iff.mpr hany
    have hesc : (csvEscape s).toList = s.toList := by
      show csvEscapeL s.toList = s.toList
      unfold csvEscapeL
      rw [if_neg (by rw [hfalse]; simp)]
    rw [hesc] at h
    cases hcs : s.toList with
    | nil => rw [hcs] at h; cases h
    | cons c t =>
      rw [hcs] at h
      have hc : c = '"' := by simpa using h
      have : s.toList.any isCsvSpecial = true := by
        rw [hcs, List.any_cons, hc]
        simp [isCsvSpecial]
      rw [this] at hfalse
      cases hfalse
  · intro h
    show String.mk (csvEscapeL s.toList) = _
    unfold csvEscapeL
    rw [if_pos h]
  · intro h
    show String.mk (csvEscapeL s.toList) = s
    unfold csvEscapeL
    rw [if_neg (by rw [h]; simp)]
    exact strMk_toList s

/-- Witness for the amended C5 statement: the quoting branch at a field with
a comma and the plain branch at a field with no special character. -/
theorem c5_amended_witness :
    csvEscape "a,b" = String.mk ('"' :: ("a,b".toList.flatMap dblQuote ++ ['"'])) ∧
    csvEscape "ab" = "ab" := by
  exact ⟨(c5_amended_quoting_no_roundtrip.1 "a,b").2.1 (by decide),
         (c5_amended_quoting_no_roundtrip.1 "ab").2.2 (by decide)⟩

/-- C6: for every raw row, the transformed record carries the rounded
absolute value of the parsed amount, the type is Expense exactly on negative
parsed amounts and Income on zero or positive ones, and the printed amount is
always a non negative two decimal rendering, so the sign lives only in the
type column. -/
theorem c6_sign_rule :
    ∀ (jsDate : String → Option String) (st : Settings) (cmap : CatMap) (r : RawRow),
      (transformRow jsDate st cmap r).amount =
        toFixed2 (qAbs (amountValue (rawAmountOf r))) ∧
      (amountValue (rawAmountOf r) < 0 → (transformRow jsDate st cmap r).type = "Expense") ∧
      (0 ≤ amountValue (rawAmountOf r) → (transformRow jsDate st cmap r).type = "Income") ∧
      qAbs (amountValue (rawAmountOf r)) = |amountValue (rawAmountOf r)| ∧
      ∃ n : Nat, (transformRow jsDate st cmap r).amount = fmtCents n := by
  intro jsDate st cmap r
  refine ⟨rfl, ?_, ?_, qAbs_eq_abs _, ?_⟩
  · intro h
    simp only [transformRow]
    rw [if_pos h]
  · intro h
    simp only [transformRow]
    rw [if_neg (not_lt.mpr h)]
  · have habs : qAbs (amountValue (rawAmountOf r)) = |amountValue (rawAmountOf r)| :=
      qAbs_eq_abs _
    have hnum : ¬ (qAbs (amountValue (rawAmountOf r))).num < 0 := by
      rw [habs]
      exact not_lt.mpr (Rat.num_nonneg.mpr (abs_nonneg _))
    refine ⟨Int.toNat (roundCents (qAbs (amountValue (rawAmountOf r)))), ?_⟩
    show toFixed2 (qAbs (amountValue (rawAmountOf r))) = _
    unfold toFixed2
    rw [if_neg hnum]

/-- Witness for C6 at a negative and a non negative concrete amount. -/
theorem c6_sign_rule_witness :
    (transformRow hostDateNone stDefault [] [("Amount", "-12")]).type = "Expense" ∧
    (transformRow hostDateNone stDefault [] [("Amount", "5")]).type = "Income" := by
  exact ⟨(c6_sign_rule hostDateNone stDefault [] [("Amount", "-12")]).2.1 (by decide),
         (c6_sign_rule hostDateNone stDefault [] [("Amount", "5")]).2.2.1 (by decide)⟩

/-- C7 counterexample: a row whose State is the lower case string completed
is admitted by the filter even though its State differs from COMPLETED, so
the filter does not admit exactly the rows whose State equals COMPLETED. -/
theorem c7_case_counterexample :
    filteredRows true [[("State", "completed")]] = [[("State", "completed")]] ∧
    rowGet [("State", "completed")] "State" ≠ "COMPLETED" := by
  refine ⟨by decide, by decide⟩

/-- C7 amended: with the completed only setting on, the filter admits exactly
the nonempty rows whose upper cased State column equals COMPLETED, a case
insensitive comparison. -/
theorem c7_amended_case_insensitive :
    ∀ (rows : List RawRow) (r : RawRow),
      r ∈ filteredRows true rows ↔
        r ∈ rows ∧ r ≠ [] ∧ strToUpper (rowGet r "State") = "COMPLETED" := by
  intro rows r
  simp only [filteredRows, List.mem_filter, List.isEmpty_eq_true, Bool.not_eq_true',
    beq_iff_eq, if_true, and_assoc, ne_eq]
  constructor
  · rintro ⟨h1, h2, h3⟩
    exact ⟨h1, by simpa using h2, h3⟩
  · rintro ⟨h1, h2, h3⟩
    exact ⟨h1, by simpa using h2, h3⟩

/-- Witness for the amended C7 statement at a concrete lower case row. -/
theorem c7_amended_witness :
    [("State", "completed")] ∈ filteredRows true [[("State", "completed")]] := by
  exact (c7_amended_case_insensitive [[("State", "completed")]]
    [("State", "completed")]).mpr ⟨by decide, by decide, by decide⟩

/-- C8: the heuristic categorizer is a pure function over an ordered rule
list with first match winning: Salary ACME maps to Income, Conad Superstore
maps to Groceries, the income rule fires before the transfer rule so bonifico
in entrata maps to Income and not Transfers, and any name matching no rule
maps to Other. -/
theorem c8_heuristic_priority :
    heuristicCategory "Salary ACME" = "Income" ∧
    heuristicCategory "Conad Superstore" = "Groceries" ∧
    heuristicCategory "bonifico in entrata" = "Income" ∧
    ∀ name : String, matchesAnyHeuristicRule name = false →
      heuristicCategory name = "Other" := by
  refine ⟨by decide, by decide, by decide, ?_⟩
  intro name h
  simp only [matchesAnyHeuristicRule, List.any_eq_false] at h
  simp only [heuristicCategory]
  rw [List.find?_eq_none.mpr ?_]
  · rfl
  · intro x hx
    simpa using h x hx

/-- Witness for the no match branch of C8 at a concrete unmatched name. -/
theorem c8_heuristic_priority_witness :
    heuristicCategory "zzqx" = "Other" :=
  c8_heuristic_priority.2.2.2 "zzqx" (by decide)

/-- C9: an amount string that parseFloat cannot read yields numeric zero, the
transformed row carries amount 0.00 and type Income, and the transformation
never drops a row for its amount: the output has exactly one record per
filtered row. -/
theorem c9_unparseable_amount_zero :
    ∀ (jsDate : String → Option String) (st : Settings) (cmap : CatMap) (r : RawRow)
      (rows : List RawRow),
      (amountNum (rawAmountOf r) = none →
        amountValue (rawAmountOf r) = 0 ∧
        (transformRow jsDate st cmap r).amount = "0.00" ∧
        (transformRow jsDate st cmap r).type = "Income") ∧
      (transformedAll jsDate st cmap rows).length =
        (filteredRows st.onlyCompleted rows).length := by
  intro jsDate st cmap r rows
  constructor
  · intro h
    have hv : amountValue (rawAmountOf r) = 0 := by
      simp [amountValue, h]
    refine ⟨hv, ?_, ?_⟩
    · show toFixed2 (qAbs (amountValue (rawAmountOf r))) = "0.00"
      rw [hv]
      decide
    · show (if amountValue (rawAmountOf r) < 0 then "Expense" else "Income") = "Income"
      rw [hv]
      simp
  · simp [transformedAll]

/-- Witness for C9 at a concrete unparseable amount string. -/
theorem c9_unparseable_witness :
    (transformRow hostDateNone stDefault [] [("Amount", "n/a")]).amount = "0.00" ∧
    (transformRow hostDateNone stDefault [] [("Amount", "n/a")]).type = "Income" := by
  have h := (c9_unparseable_amount_zero hostDateNone stDefault [] [("Amount", "n/a")] []).1
    (by decide)
  exact ⟨h.2.1, h.2.2⟩
